import Mathlib

/-!
Verification of the `process` package (process.go): a shallow embedding of
its data model and operations, with theorems checking the claims of the
specification against the code.

Conventions of the embedding:
* Go strings are modelled as Lean `String`s; `len` of a Go string equals
  `String.utf8ByteSize`.
* Go channels carrying messages are modelled by the list of messages sent on
  them, in send order.
* Goroutine loops over a channel become structurally recursive functions over
  the list of messages received before the channel was closed.
-/

/-- `Message` (process.go lines 25-29): the wire format. Fields `Id`, `Kind`,
`Body` are Go strings. -/
structure Message where
  Id : String
  Kind : String
  Body : String
deriving DecidableEq, Repr

/-- `msgLimit` (process.go line 20): max number of messages to send per
session. -/
def msgLimit : Nat := 1000

/-- The kill request built by `limiter` (process.go line 137):
`&Message{Id: m.Id, Kind: "kill"}` - the `Body` field is left at its zero
value, the empty string. -/
def killMessage (m : Message) : Message :=
  { Id := m.Id, Kind := "kill", Body := "" }

/-- One iteration of the loop body of the `limiter` goroutine (process.go lines
128-139), generalized over the limit `L` (the source fixes `L = msgLimit`).
Given the counter `n` and the received message `m`, it returns the messages
sent on `dest`, the messages sent on `kill`, and `some n2` when the loop
continues with counter `n2` (the `n++` after the switch), or `none` when the
goroutine returns (which happens exactly on an `end` message, before `n++`
is reached). -/
def limiterStep (L n : Nat) (m : Message) :
    List Message × List Message × Option Nat :=
  if n < L ∨ m.Kind = "end" then
    if m.Kind = "end" then ([m], [], none) else ([m], [], some (n + 1))
  else if n = L then ([], [killMessage m], some (n + 1))
  else ([], [], some (n + 1))

/-- The `limiter` goroutine (process.go lines 124-143) run over the list of
messages received on its input channel before the channel is closed, starting
from counter `n`. Returns the messages sent to `dest` and to `kill`, in
order. -/
def limiterRun (L n : Nat) : List Message → List Message × List Message
  | [] => ([], [])
  | m :: ms =>
    match limiterStep L n m with
    | (d, k, none) => (d, k)
    | (d, k, some n2) =>
      let r := limiterRun L n2 ms
      (d ++ r.1, k ++ r.2)

/-- `limiter` as constructed in the source: counter starts at 0 and the limit
is `msgLimit`. -/
def limiter (input : List Message) : List Message × List Message :=
  limiterRun msgLimit 0 input

/-- `Process.end` (process.go lines 89-95): builds the terminal message
`&Message{Id: p.id, Kind: "end"}`, setting `Body` to the error text only when
the error is non-nil. The returned value is the message sent on `p.out`. -/
def endMessage (id : String) (err : Option String) : Message :=
  { Id := id, Kind := "end",
    Body := match err with | none => "" | some e => e }

/-- The two output kinds bound by `Process.cmd` (process.go lines 104-105). -/
inductive StdKind where
  | stdout
  | stderr
deriving DecidableEq, Repr

/-- The `Kind` string a relay of the given `StdKind` stamps on its
messages. -/
def StdKind.kindString : StdKind → String
  | .stdout => "stdout"
  | .stderr => "stderr"

/-- `messageWriter` (process.go lines 111-114): the id and kind are bound at
construction; the `out` channel is modelled by the message list that `Write`
returns. -/
structure messageWriter where
  id : String
  kind : String
deriving DecidableEq, Repr

/-- `messageWriter.Write` (process.go lines 116-119): sends exactly one
Message wrapping the received bytes (modelled as the string `b`, whose Go
`len` is its UTF-8 byte size) on `out`, and returns `(len(b), nil)`. The
result is (messages sent on out, byte count n, error). -/
def messageWriter.Write (w : messageWriter) (b : String) :
    List Message × Nat × Option String :=
  ([{ Id := w.id, Kind := w.kind, Body := b }], b.utf8ByteSize, none)

/-- The pair of relays `Process.cmd` installs as `cmd.Stdout` and
`cmd.Stderr` (process.go lines 104-105). -/
def cmdWriters (id : String) : messageWriter × messageWriter :=
  ({ id := id, kind := "stdout" }, { id := id, kind := "stderr" })

/-- One output write of the child process, as wrapped by the relay bound to
the written stream (first component: which stream, second: the bytes). -/
def relayMessage (id : String) (w : StdKind × String) : Message :=
  { Id := id, Kind := w.1.kindString, Body := w.2 }

/-- The full sequence of Messages the core emits for one process lifecycle
with the given id. On spawn failure (including rejected empty argument
lists), `StartProcess` emits only the end message (process.go line 48). On
success, the interleaved stdout/stderr writes of the child are relayed in
order,
and the end message from `Process.wait` (line 83) follows them all, because
`cmd.Wait()` returns only after the output copying to the relays has
completed. -/
def processTrace (id : String) (spawnErr : Option String)
    (writes : List (StdKind × String)) (exitErr : Option String) :
    List Message :=
  match spawnErr with
  | some e => [endMessage id (some e)]
  | none => writes.map (relayMessage id) ++ [endMessage id exitErr]

/-- `Process` (process.go lines 32-37), as the caller-visible handle. The
`out` and `Done` channels and the `run` command are modelled externally (by
emitted-message lists and the lifecycle phase below), so the embedded handle
keeps the id. -/
structure Process where
  id : String
deriving DecidableEq, Repr

/-- The error result of `Process.start` (process.go lines 67-78): an empty
argument list yields the error "No arguments found" before any spawn attempt;
otherwise the result of `cmd.Start()`, modelled by the environment-provided
`spawnErr` (`none` on success, `some e` when the OS reports error text
`e`). -/
def Process.startErr (args : List String) (spawnErr : Option String) :
    Option String :=
  if args.isEmpty then some "No arguments found" else spawnErr

/-- The synchronous outcome of a `StartProcess` call: the returned handle
(`none` for the nil return on line 50), the messages it itself sends on `out`
before returning, whether it closed `out`, and whether a child process is
running when it returns. -/
structure StartOutcome where
  handle : Option Process
  emitted : List Message
  outClosed : Bool
  spawned : Bool
deriving DecidableEq, Repr

/-- `StartProcess` (process.go lines 41-54) with the drawn id and the spawn
result as parameters: on a `start` error it sends the end message, closes
`out` and returns nil (lines 47-51); on success it returns the handle at once
and emits nothing itself (the background `wait` goroutine emits later). The
`dir` parameter only configures the working directory of the child (line 102)
and
does not affect the outcome shape. -/
def StartProcess (id : String) (dir : Option String) (args : List String)
    (spawnErr : Option String) : StartOutcome :=
  match Process.startErr args spawnErr with
  | some e =>
    { handle := none, emitted := [endMessage id (some e)],
      outClosed := true, spawned := false }
  | none =>
    { handle := some { id := id }, emitted := [],
      outClosed := false, spawned := true }

/-- Lifecycle phases of a successfully spawned process, as relevant to
`Process.Kill` and `Process.wait`: the OS process is running; it has exited
but `wait` has not yet reacted; `wait` has sent the end message; `wait` has
closed `Done`. -/
inductive ProcPhase where
  | running
  | exited
  | endSent
  | doneClosed
deriving DecidableEq, Repr

/-- Lifecycle transitions: the OS process exits (on its own or because it was
killed); then the `wait` goroutine (process.go lines 82-85) sends the end
message and only afterwards closes `Done`. -/
inductive ProcStep : ProcPhase → ProcPhase → Prop where
  | exits : ProcStep .running .exited
  | sendEnd : ProcStep .exited .endSent
  | closeDone : ProcStep .endSent .doneClosed

/-- Whether the `Done` channel is closed in a given phase (it is closed
exactly by line 84, after the end message has been sent). -/
def doneFired : ProcPhase → Bool
  | .doneClosed => true
  | _ => false

/-- The synchronous effect of one `Process.Kill` call: whether it signalled
the OS process, and whether it then receives on `Done`. -/
structure KillCall where
  signaled : Bool
  blocksOnDone : Bool
deriving DecidableEq, Repr

/-- `Process.Kill` (process.go lines 57-63): a nil receiver returns
immediately, with no signal and no wait; otherwise it kills the OS process
and then receives on `Done`. -/
def Process.Kill : Option Process → KillCall
  | none => { signaled := false, blocksOnDone := false }
  | some _ => { signaled := true, blocksOnDone := true }

/-- Whether a `Process.Kill` call invoked while the process is in phase `ph`
returns to its caller (rather than staying blocked): a nil-receiver call
always returns; otherwise the receive on `Done` (line 62) completes exactly
when `Done` has been closed. -/
def killReturns (h : Option Process) (ph : ProcPhase) : Bool :=
  match h with
  | none => true
  | some _ => doneFired ph

/-- The Go integer-to-string conversion `string(i)`, used for the process id on
process.go line 43 (`id: string(<-uniq)`). Per the Go specification, the
result is the one-rune string of code point `i` when `i` is a valid Unicode
scalar value, and the replacement character `"�"` otherwise (surrogates
`0xD800`-`0xDFFF` and integers above `0x10FFFF`). -/
def goRuneString (i : Nat) : String :=
  if Nat.isValidChar i then String.singleton (Char.ofNat i) else "�"

/-- The state of the `uniq` generator goroutine (process.go lines 149-155):
the loop body at state `i` sends `i` on the channel and continues with
`i + 1`. -/
def uniqNext (i : Nat) : Nat × Nat := (i, i + 1)

/-- The k-th value received from `uniq` when the generator loop starts at
state `s`. -/
def uniqValFrom (s : Nat) : Nat → Nat
  | 0 => (uniqNext s).1
  | k + 1 => uniqValFrom (uniqNext s).2 k

/-- The k-th value received from `uniq`: the generator loop starts at
`i = 0` (process.go line 151). -/
def uniqVal (k : Nat) : Nat := uniqValFrom 0 k

/-- The id assigned by the k-th `StartProcess` call (in uniq-consumption
order): `string(<-uniq)` on process.go line 43. -/
def assignedId (k : Nat) : String := goRuneString (uniqVal k)

-- Branch equations for `limiterStep`.

theorem limiterStep_end (L n : Nat) (m : Message) (h : m.Kind = "end") :
    limiterStep L n m = ([m], [], none) := by
  unfold limiterStep
  rw [if_pos (Or.inr h), if_pos h]

theorem limiterStep_forward (L n : Nat) (m : Message) (h1 : n < L)
    (h2 : m.Kind ≠ "end") :
    limiterStep L n m = ([m], [], some (n + 1)) := by
  unfold limiterStep
  rw [if_pos (Or.inl h1), if_neg h2]

theorem limiterStep_kill (L : Nat) (m : Message) (h2 : m.Kind ≠ "end") :
    limiterStep L L m = ([], [killMessage m], some (L + 1)) := by
  unfold limiterStep
  rw [if_neg (by simp [h2]), if_pos rfl]

theorem limiterStep_drop (L n : Nat) (m : Message) (h1 : L < n)
    (h2 : m.Kind ≠ "end") :
    limiterStep L n m = ([], [], some (n + 1)) := by
  unfold limiterStep
  rw [if_neg (by simp [h2]; omega), if_neg (by omega)]

theorem limiterRun_nil (L n : Nat) : limiterRun L n [] = ([], []) := rfl

theorem limiterRun_cons_end (L n : Nat) (m : Message) (ms : List Message)
    (h : m.Kind = "end") : limiterRun L n (m :: ms) = ([m], []) := by
  rw [limiterRun, limiterStep_end L n m h]

theorem limiterRun_cons_forward (L n : Nat) (m : Message) (ms : List Message)
    (h1 : n < L) (h2 : m.Kind ≠ "end") :
    limiterRun L n (m :: ms) =
      (m :: (limiterRun L (n + 1) ms).1, (limiterRun L (n + 1) ms).2) := by
  rw [limiterRun, limiterStep_forward L n m h1 h2]
  simp

theorem limiterRun_cons_kill (L : Nat) (m : Message) (ms : List Message)
    (h2 : m.Kind ≠ "end") :
    limiterRun L L (m :: ms) =
      ((limiterRun L (L + 1) ms).1,
        killMessage m :: (limiterRun L (L + 1) ms).2) := by
  rw [limiterRun, limiterStep_kill L m h2]
  simp

theorem limiterRun_cons_drop (L n : Nat) (m : Message) (ms : List Message)
    (h1 : L < n) (h2 : m.Kind ≠ "end") :
    limiterRun L n (m :: ms) = limiterRun L (n + 1) ms := by
  rw [limiterRun, limiterStep_drop L n m h1 h2]
  simp

/-- Characterization of a limiter run over messages none of which is an
`end` message: the first `L - n` messages are forwarded, one kill request is
sent at the message that sees counter `L` (if the input reaches it), and
everything after is dropped. -/
theorem limiterRun_nonEnd (L : Nat) (ms : List Message)
    (h : ∀ m ∈ ms, m.Kind ≠ "end") (n : Nat) :
    limiterRun L n ms =
      (ms.take (L - n),
        if n ≤ L then ((ms.drop (L - n)).take 1).map killMessage else []) := by
  induction ms generalizing n with
  | nil => simp [limiterRun_nil]
  | cons m ms ih =>
    have hm : m.Kind ≠ "end" := h m (List.mem_cons_self m ms)
    have hms : ∀ x ∈ ms, x.Kind ≠ "end" := fun x hx => h x (List.mem_cons_of_mem m hx)
    rcases Nat.lt_trichotomy n L with hlt | heq | hgt
    · rw [limiterRun_cons_forward L n m ms hlt hm, ih hms (n + 1)]
      have hsub : L - n = (L - (n + 1)) + 1 := by omega
      rw [hsub]
      simp only [List.take_succ_cons, List.drop_succ_cons]
      rw [if_pos (by omega), if_pos (by omega)]
    · subst heq
      rw [limiterRun_cons_kill n m ms hm, ih hms (n + 1)]
      rw [if_neg (by omega), if_pos (le_refl n)]
      have h0 : n - n = 0 := Nat.sub_self n
      have h1 : n - (n + 1) = 0 := by omega
      rw [h0, h1]
      simp
    · rw [limiterRun_cons_drop L n m ms hgt hm, ih hms (n + 1)]
      rw [if_neg (by omega), if_neg (by omega)]
      have h1 : L - n = 0 := by omega
      have h2 : L - (n + 1) = 0 := by omega
      rw [h1, h2]
      simp

/-- Messages before the first `end` never make the limiter goroutine return
early, so a run over `ms ++ rest` with `ms` end-free decomposes into the run
over `ms` followed by the run over `rest` from counter `n + ms.length`. -/
theorem limiterRun_append_nonEnd (L : Nat) (ms rest : List Message)
    (h : ∀ m ∈ ms, m.Kind ≠ "end") (n : Nat) :
    limiterRun L n (ms ++ rest) =
      ((limiterRun L n ms).1 ++ (limiterRun L (n + ms.length) rest).1,
        (limiterRun L n ms).2 ++ (limiterRun L (n + ms.length) rest).2) := by
  induction ms generalizing n with
  | nil => simp [limiterRun_nil]
  | cons m ms ih =>
    have hm : m.Kind ≠ "end" := h m (List.mem_cons_self m ms)
    have hms : ∀ x ∈ ms, x.Kind ≠ "end" := fun x hx => h x (List.mem_cons_of_mem m hx)
    have hlen : n + (m :: ms).length = (n + 1) + ms.length := by
      simp [List.length_cons]; omega
    rcases Nat.lt_trichotomy n L with hlt | heq | hgt
    · rw [List.cons_append, limiterRun_cons_forward L n m _ hlt hm,
        limiterRun_cons_forward L n m ms hlt hm, ih hms (n + 1), hlen]
      simp
    · subst heq
      rw [List.cons_append, limiterRun_cons_kill n m _ hm,
        limiterRun_cons_kill n m ms hm, ih hms (n + 1), hlen]
      simp
    · rw [List.cons_append, limiterRun_cons_drop L n m _ hgt hm,
        limiterRun_cons_drop L n m ms hgt hm, ih hms (n + 1), hlen]

-- The uniq generator emits consecutive integers.

theorem uniqValFrom_eq (k s : Nat) : uniqValFrom s k = s + k := by
  induction k generalizing s with
  | zero => simp [uniqValFrom, uniqNext]
  | succ k ih =>
    rw [uniqValFrom, ih]
    simp [uniqNext]
    omega

theorem uniqVal_eq (k : Nat) : uniqVal k = k := by
  rw [uniqVal, uniqValFrom_eq]
  exact Nat.zero_add k

theorem char_toNat_ofNat_valid {n : Nat} (h : n.isValidChar) :
    (Char.ofNat n).toNat = n := by
  unfold Char.ofNat
  rw [dif_pos h]
  rfl

theorem goRuneString_inj {i j : Nat} (hi : i.isValidChar)
    (hj : j.isValidChar) (hne : i ≠ j) :
    goRuneString i ≠ goRuneString j := by
  unfold goRuneString
  rw [if_pos hi, if_pos hj]
  intro hEq
  apply hne
  have hchar : Char.ofNat i = Char.ofNat j := by
    have hdata := congrArg String.data hEq
    simpa [String.singleton] using hdata
  calc i = (Char.ofNat i).toNat := (char_toNat_ofNat_valid hi).symm
    _ = (Char.ofNat j).toNat := by rw [hchar]
    _ = j := char_toNat_ofNat_valid hj

-- Sanity: the writers Process.cmd installs carry the process id and the
-- stdout/stderr kinds.

theorem cmdWriters_bound (pid : String) :
    (cmdWriters pid).1 = { id := pid, kind := "stdout" } ∧
    (cmdWriters pid).2 = { id := pid, kind := "stderr" } := ⟨rfl, rfl⟩

/-- Claim C1: for every process lifecycle (spawn success or failure), the
core emits exactly one end Message for the process id, and it is the last:
the emission trace splits as a prefix of messages with the process id and
non-end kinds, followed by one final end message for that id. -/
theorem process_end_once_and_last (id : String) (spawnErr : Option String)
    (writes : List (StdKind × String)) (exitErr : Option String) :
    ∃ pre last, processTrace id spawnErr writes exitErr = pre ++ [last] ∧
      last.Kind = "end" ∧ last.Id = id ∧
      ∀ m ∈ pre, m.Id = id ∧ m.Kind ≠ "end" := by
  cases spawnErr with
  | some e =>
    exact ⟨[], endMessage id (some e), rfl, rfl, rfl, by simp⟩
  | none =>
    refine ⟨writes.map (relayMessage id), endMessage id exitErr, rfl, rfl,
      rfl, ?_⟩
    intro m hm
    obtain ⟨w, hw, rfl⟩ := List.mem_map.mp hm
    obtain ⟨k, b⟩ := w
    refine ⟨rfl, ?_⟩
    cases k <;> simp [relayMessage, StdKind.kindString]

/-- Claim C2: a limiter with cap L, fed more than L end-free messages and
then an end message, forwards exactly the first L of them plus the end
message, and sends exactly one kill request, carrying the id of the (L+1)-th
message, on the kill stream; everything past the (L+1)-th message is dropped
with no further kill. -/
theorem limiter_overflow (L : Nat) (ms : List Message) (e : Message)
    (hms : ∀ m ∈ ms, m.Kind ≠ "end") (he : e.Kind = "end")
    (hlen : L < ms.length) :
    limiterRun L 0 (ms ++ [e]) =
      (ms.take L ++ [e], [killMessage (ms.get ⟨L, hlen⟩)]) := by
  rw [limiterRun_append_nonEnd L ms [e] hms 0,
    limiterRun_nonEnd L ms hms 0,
    limiterRun_cons_end L (0 + ms.length) e [] he]
  simp only [Nat.zero_add, Nat.sub_zero]
  rw [if_pos (Nat.zero_le L)]
  have hdrop : ms.drop L = ms.get ⟨L, hlen⟩ :: ms.drop (L + 1) := by
    rw [List.drop_eq_getElem_cons hlen, List.get_eq_getElem]
  rw [hdrop]
  rfl

/-- Claim C2 witness: cap 2, three end-free messages then an end message. -/
theorem limiter_overflow_check :
    limiterRun 2 0
      ([{ Id := "a", Kind := "stdout", Body := "one" },
        { Id := "a", Kind := "stdout", Body := "two" },
        { Id := "a", Kind := "stderr", Body := "three" }] ++
        [{ Id := "a", Kind := "end", Body := "" }]) =
      ([{ Id := "a", Kind := "stdout", Body := "one" },
        { Id := "a", Kind := "stdout", Body := "two" },
        { Id := "a", Kind := "end", Body := "" }],
        [{ Id := "a", Kind := "kill", Body := "" }]) := by
  rw [limiter_overflow 2
    [{ Id := "a", Kind := "stdout", Body := "one" },
      { Id := "a", Kind := "stdout", Body := "two" },
      { Id := "a", Kind := "stderr", Body := "three" }]
    { Id := "a", Kind := "end", Body := "" }
    (by decide) rfl (by decide)]
  decide

/-- Claim C3 counterexample: a start call with empty commandAndArgs does emit
Message traffic on the output stream — the end message with body
"No arguments found" — so "no Message traffic" fails on the code. -/
theorem startProcess_empty_args_emits :
    (StartProcess "a" none [] none).emitted =
      [{ Id := "a", Kind := "end", Body := "No arguments found" }] ∧
    (StartProcess "a" none [] none).emitted ≠ [] := by
  constructor
  · rfl
  · decide

/-- Claim C3 (amended): for every start call with empty commandAndArgs, no
handle is returned and no child is spawned; the rejection is decided before
any spawn attempt and reported synchronously to the caller as a nil return —
but one end Message with body "No arguments found" is emitted on the output
stream, which is then closed. -/
theorem startProcess_empty_args (id : String) (dir : Option String)
    (spawnErr : Option String) :
    (StartProcess id dir [] spawnErr).handle = none ∧
    (StartProcess id dir [] spawnErr).spawned = false ∧
    (StartProcess id dir [] spawnErr).emitted =
      [{ Id := id, Kind := "end", Body := "No arguments found" }] ∧
    (StartProcess id dir [] spawnErr).outClosed = true := by
  refine ⟨rfl, rfl, rfl, rfl⟩

/-- Claim C4: a start call whose spawn attempt fails with error text `e`
(non-empty) emits exactly one terminal end Message whose body is `e`, closes
the output stream, and returns no handle (and no child is running). -/
theorem startProcess_spawn_failure (id : String) (dir : Option String)
    (args : List String) (e : String) (hargs : args ≠ []) (he : e ≠ "") :
    (StartProcess id dir args (some e)).handle = none ∧
    (StartProcess id dir args (some e)).emitted =
      [{ Id := id, Kind := "end", Body := e }] ∧
    (StartProcess id dir args (some e)).emitted.length = 1 ∧
    (∀ m ∈ (StartProcess id dir args (some e)).emitted,
      m.Kind = "end" ∧ m.Body ≠ "") ∧
    (StartProcess id dir args (some e)).outClosed = true ∧
    (StartProcess id dir args (some e)).spawned = false := by
  cases args with
  | nil => exact absurd rfl hargs
  | cons a as =>
    refine ⟨rfl, rfl, rfl, ?_, rfl, rfl⟩
    intro m hm
    have hmem : m = { Id := id, Kind := "end", Body := e } := by
      simpa [StartProcess, Process.startErr, endMessage] using hm
    subst hmem
    exact ⟨rfl, he⟩

/-- Claim C4 witness: spawning a missing executable. -/
theorem startProcess_spawn_failure_check :
    (StartProcess "a" none ["./does-not-exist"]
        (some "no such file or directory")).handle = none ∧
    (StartProcess "a" none ["./does-not-exist"]
        (some "no such file or directory")).emitted =
      [{ Id := "a", Kind := "end", Body := "no such file or directory" }] ∧
    (StartProcess "a" none ["./does-not-exist"]
        (some "no such file or directory")).emitted.length = 1 ∧
    (∀ m ∈ (StartProcess "a" none ["./does-not-exist"]
        (some "no such file or directory")).emitted,
      m.Kind = "end" ∧ m.Body ≠ "") ∧
    (StartProcess "a" none ["./does-not-exist"]
        (some "no such file or directory")).outClosed = true ∧
    (StartProcess "a" none ["./does-not-exist"]
        (some "no such file or directory")).spawned = false :=
  startProcess_spawn_failure "a" none ["./does-not-exist"]
    "no such file or directory" (by decide) (by decide)

/-- Claim C5: Kill on a nil handle is a no-op that returns at once; on a real
handle it signals the OS process and then blocks on Done, returning exactly
when Done has been closed by the wait goroutine — which closes Done only
after the end message was sent; no transition leaves the Done-closed phase,
so killing an already-ended process (or killing twice) returns immediately
and is safe. -/
theorem kill_spec :
    Process.Kill none = { signaled := false, blocksOnDone := false } ∧
    (∀ ph, killReturns none ph = true) ∧
    (∀ p, Process.Kill (some p) =
      { signaled := true, blocksOnDone := true }) ∧
    (∀ p ph, killReturns (some p) ph = true ↔ ph = ProcPhase.doneClosed) ∧
    (∀ ph, ProcStep ph ProcPhase.doneClosed → ph = ProcPhase.endSent) ∧
    (∀ ph, Relation.ReflTransGen ProcStep ProcPhase.doneClosed ph →
      ph = ProcPhase.doneClosed) := by
  refine ⟨rfl, fun ph => rfl, fun p => rfl, ?_, ?_, ?_⟩
  · intro p ph
    cases ph <;> simp [killReturns, doneFired]
  · intro ph h
    cases h
    rfl
  · intro ph h
    induction h with
    | refl => rfl
    | tail h1 h2 ih =>
      rw [ih] at h2
      cases h2

/-- Claim C5 witness: a Kill call on a handle whose process has reached the
Done-closed phase returns, and a Kill call on a nil handle returns. -/
theorem kill_spec_check :
    killReturns (some { id := "a" }) ProcPhase.doneClosed = true ∧
    killReturns none ProcPhase.running = true :=
  ⟨(kill_spec.2.2.2.1 { id := "a" } ProcPhase.doneClosed).mpr rfl,
    kill_spec.2.1 ProcPhase.running⟩

/-- Claim C6 counterexample: the start calls drawing uniq values 55296
(0xD800) and 55297 (0xD801) — both surrogate code points, invalid for the Go
integer-to-string conversion — are assigned the same id, the replacement
character, although the counter values differ. -/
theorem assignedId_collision :
    assignedId 55296 = assignedId 55297 ∧ (55296 : Nat) ≠ 55297 := by
  constructor
  · simp only [assignedId, uniqVal_eq]
    decide
  · decide

/-- Claim C6 (amended): two start calls receive distinct id strings whenever
the uniq values they draw are valid Unicode scalar values — in particular any
two of the first 0xD800 start calls get distinct ids; beyond that, calls
drawing invalid code points can collide on the replacement character. -/
theorem assignedId_distinct (k l : Nat) (hk : Nat.isValidChar k)
    (hl : Nat.isValidChar l) (hne : k ≠ l) :
    assignedId k ≠ assignedId l := by
  simp only [assignedId, uniqVal_eq]
  exact goRuneString_inj hk hl hne

/-- Claim C6 witness: the first two start calls get distinct ids. -/
theorem assignedId_distinct_check : assignedId 0 ≠ assignedId 1 :=
  assignedId_distinct 0 1 (by decide) (by decide) (by decide)

/-- Claim C7: one Write call on an Output Relay sends exactly one Message,
whose kind and id are the bound kind and id of the relay and whose body is the
written chunk verbatim, and returns the full byte count with a nil error. -/
theorem messageWriter_write (w : messageWriter) (b : String) :
    (w.Write b).1 = [{ Id := w.id, Kind := w.kind, Body := b }] ∧
    (w.Write b).1.length = 1 ∧
    (w.Write b).2.1 = b.utf8ByteSize ∧
    (w.Write b).2.2 = none :=
  ⟨rfl, rfl, rfl, rfl⟩

/-- Claim C8 counterexample: on an end message the limiter goroutine returns
from inside the switch, before the n++ statement, so that message is examined
and handled (forwarded) but the counter is not incremented: the step yields
no continuation counter at all, in particular not 0 + 1. -/
theorem limiterStep_end_no_increment :
    (limiterStep msgLimit 0 { Id := "a", Kind := "end", Body := "" }).2.2
        = none ∧
    (limiterStep msgLimit 0 { Id := "a", Kind := "end", Body := "" }).2.2
        ≠ some (0 + 1) := by
  constructor
  · rfl
  · decide

/-- Claim C8 (amended): the limiter increments its counter after every
non-end message it examines, regardless of which branch (forward,
kill-request, or drop) handled it; on an end message it returns without
reaching the increment. -/
theorem limiter_counter_increment (L n : Nat) (m : Message) :
    (m.Kind ≠ "end" → (limiterStep L n m).2.2 = some (n + 1)) ∧
    (m.Kind = "end" → (limiterStep L n m).2.2 = none) := by
  constructor
  · intro h
    rcases Nat.lt_trichotomy n L with h1 | h1 | h1
    · rw [limiterStep_forward L n m h1 h]
    · rw [h1, limiterStep_kill L m h]
    · rw [limiterStep_drop L n m h1 h]
  · intro h
    rw [limiterStep_end L n m h]

/-- Claim C8 witness: a forwarded stdout message at counter 3 under cap 5
continues with counter 4. -/
theorem limiter_counter_increment_check :
    (limiterStep 5 3 { Id := "a", Kind := "stdout", Body := "x" }).2.2
      = some (3 + 1) :=
  (limiter_counter_increment 5 3
    { Id := "a", Kind := "stdout", Body := "x" }).1 (by decide)

/-- Claim C9 counterexample: the start call drawing uniq value 55296 (the
surrogate 0xD800) is assigned the replacement character U+FFFD (code point
65533) as its id, not a one-rune string whose code point is 55296. -/
theorem assignedId_not_codepoint :
    (assignedId 55296).toList.map Char.toNat = [65533] ∧
    (65533 : Nat) ≠ 55296 := by
  constructor
  · simp only [assignedId, uniqVal_eq]
    decide
  · decide

/-- Claim C9 (amended): the generator yields the consecutive integers
0, 1, 2, ... in order; the id of the k-th start call is the Go string(k): a
one-character string, whose sole character has code point k whenever k is a
valid Unicode scalar value (so the first process id is "\x00"); for
surrogates and oversized values the character is U+FFFD instead. -/
theorem assignedId_form (k : Nat) :
    uniqVal k = k ∧
    (assignedId k).length = 1 ∧
    (Nat.isValidChar k → (assignedId k).toList.map Char.toNat = [k]) ∧
    assignedId 0 = "\x00" := by
  refine ⟨uniqVal_eq k, ?_, ?_, ?_⟩
  · simp only [assignedId, uniqVal_eq, goRuneString]
    split
    · rfl
    · rfl
  · intro h
    simp only [assignedId, uniqVal_eq, goRuneString, if_pos h]
    show [Char.toNat (Char.ofNat k)] = [k]
    rw [char_toNat_ofNat_valid h]
  · rfl

/-- Claim C9 witness: the 66th start call draws 65 and gets the one-rune id
of code point 65. -/
theorem assignedId_form_check :
    uniqVal 65 = 65 ∧ (assignedId 65).toList.map Char.toNat = [65] :=
  ⟨(assignedId_form 65).1, (assignedId_form 65).2.2.1 (by decide)⟩

/-- Claim C10: if the limiter input is closed after an end-free message
sequence, the limiter terminates with no synthesized output: every message it
forwarded is one of the inputs (so none is an end message), and at most one
kill request — necessarily of kind kill — was sent. -/
theorem limiter_closed_without_end (L : Nat) (ms : List Message)
    (h : ∀ m ∈ ms, m.Kind ≠ "end") :
    (∀ m ∈ (limiterRun L 0 ms).1, m ∈ ms ∧ m.Kind ≠ "end") ∧
    (limiterRun L 0 ms).2.length ≤ 1 ∧
    (∀ m ∈ (limiterRun L 0 ms).2, m.Kind = "kill") := by
  rw [limiterRun_nonEnd L ms h 0]
  simp only [Nat.sub_zero]
  rw [if_pos (Nat.zero_le L)]
  refine ⟨?_, ?_, ?_⟩
  · intro m hm
    have hsub : m ∈ ms := List.take_subset L ms hm
    exact ⟨hsub, h m hsub⟩
  · rw [List.length_map, List.length_take]
    exact Nat.min_le_left 1 _
  · intro m hm
    obtain ⟨x, hx, rfl⟩ := List.mem_map.mp hm
    rfl

/-- Claim C10 witness: two stdout messages then the input closes, cap 1. -/
theorem limiter_closed_without_end_check :
    (∀ m ∈ (limiterRun 1 0
        [{ Id := "a", Kind := "stdout", Body := "one" },
          { Id := "a", Kind := "stdout", Body := "two" }]).1,
      m ∈ [({ Id := "a", Kind := "stdout", Body := "one" } : Message),
          { Id := "a", Kind := "stdout", Body := "two" }] ∧
      m.Kind ≠ "end") ∧
    (limiterRun 1 0
        [{ Id := "a", Kind := "stdout", Body := "one" },
          { Id := "a", Kind := "stdout", Body := "two" }]).2.length ≤ 1 ∧
    (∀ m ∈ (limiterRun 1 0
        [{ Id := "a", Kind := "stdout", Body := "one" },
          { Id := "a", Kind := "stdout", Body := "two" }]).2,
      m.Kind = "kill") :=
  limiter_closed_without_end 1
    [{ Id := "a", Kind := "stdout", Body := "one" },
      { Id := "a", Kind := "stdout", Body := "two" }] (by decide)
